import Mathlib

/-!
# Verification of the OpenChess web-asset build pipeline

Shallow embedding of the two build scripts:

* `src/web/build/prepare_littlefs.py` — the Asset Preparer: gzip-compresses or
  verbatim-copies eligible web assets from `src/web/build/` into `data/`.
* `src/web/build/upload_fs.py` — the Change-Gated Uploader: hashes `data/`,
  compares against the persisted `.littlefs_hash`, and invokes the external
  `uploadfs` action only on change, persisting the new hash only on success.

File contents are byte lists (`List Nat`, each element < 256 in practice).
A path is a list of components (each a byte list, no `/` byte inside).
External collaborators (SHA-256 digest finalisation, the DEFLATE compressor,
CRC-32) are parameters of the embedded functions: the scripts only feed them
deterministic inputs, and the claims factor through the byte streams handed
to them.
-/

namespace OpenChess

/-- Raw byte strings, as used for both file contents and encoded paths. -/
abbrev Bytes := List Nat

/-- Bytes of an ASCII string literal (UTF-8 agrees with code points here). -/
def strBytes (s : String) : Bytes := s.data.map Char.toNat

/-- Python `str.lower` restricted to ASCII, as applied to extensions. -/
def lowerBytes (bs : Bytes) : Bytes :=
  bs.map (fun c => if 65 ≤ c ∧ c ≤ 90 then c + 32 else c)

/-- Index of the last `.` (byte 46) in a filename, if any. -/
def lastDotIdx (name : Bytes) : Option Nat :=
  ((List.range name.length).filter (fun i => name.getD i 0 == 46)).getLast?

/-- Python `pathlib.PurePath.suffix` of a filename: the part from the last
dot on, empty when the last dot is the first or the final character. -/
def pySuffix (name : Bytes) : Bytes :=
  match lastDotIdx name with
  | none => []
  | some i => if 0 < i ∧ i + 1 < name.length then name.drop i else []

/-- `SUPPORTED_EXTENSIONS` from `prepare_littlefs.py` line 21. -/
def SUPPORTED_EXTENSIONS : List Bytes :=
  [strBytes ".html", strBytes ".css", strBytes ".js", strBytes ".svg", strBytes ".mp3"]

/-- Python `pat in s` on byte strings (substring test). -/
def isSubstrOf (pat : Bytes) : Bytes → Bool
  | [] => pat.isEmpty
  | c :: rest => pat.isPrefixOf (c :: rest) || isSubstrOf pat rest

/-- `is_nogz` from `prepare_littlefs.py` lines 24-25: `".nogz." in filename`.
Applied to the basename only. -/
def is_nogz (filename : Bytes) : Bool := isSubstrOf (strBytes ".nogz.") filename

/-- Python `s.replace(".nogz", "")`: delete every left-to-right,
non-overlapping occurrence of `.nogz` (bytes 46,110,111,103,122); the
replaced region is not rescanned. Embeds the `.replace(".nogz", "")` of
`prepare_littlefs.py` line 46. -/
def stripNogz : Bytes → Bytes
  | 46 :: 110 :: 111 :: 103 :: 122 :: rest => stripNogz rest
  | c :: rest => c :: stripNogz rest
  | [] => []

/-- A file on disk: path components relative to the tree root, and content. -/
structure FsFile where
  parts : List Bytes
  data : Bytes
deriving DecidableEq

/-- An entry produced by `Path.rglob("*")`: a file or a directory. -/
inductive FsEntry where
  | file (f : FsFile)
  | dir (parts : List Bytes)
deriving DecidableEq

/-- Path components of an entry. -/
def FsEntry.entryParts : FsEntry → List Bytes
  | .file f => f.parts
  | .dir p => p

/-- Whether the entry is a regular file (`Path.is_file()`). -/
def FsEntry.entryIsFile : FsEntry → Bool
  | .file _ => true
  | .dir _ => false

/-- The joined relative path, `str(p)` with `/` (byte 47) separators. -/
def entryKey (e : FsEntry) : Bytes := List.intercalate [47] e.entryParts

/-- Path order used by Python's `sorted` on `Path` objects: string
comparison of the joined path (lexicographic on bytes). -/
def entryLe (a b : FsEntry) : Prop := entryKey a ≤ entryKey b

instance : DecidableRel entryLe :=
  fun a b => inferInstanceAs (Decidable (entryKey a ≤ entryKey b))

instance : IsTotal FsEntry entryLe := ⟨fun a b => le_total (entryKey a) (entryKey b)⟩

instance : IsTrans FsEntry entryLe := ⟨fun _ _ _ h1 h2 => le_trans h1 h2⟩

/-- `sorted(DIR.rglob("*"))`: stable ascending sort by path. -/
def sortEntries (es : List FsEntry) : List FsEntry := List.insertionSort entryLe es

/-- The two `h.update` calls of `compute_data_hash` (`upload_fs.py`
lines 27-28) for one entry: relative path immediately followed by raw
bytes for a file, nothing for a directory. -/
def fileChunk : FsEntry → Option Bytes
  | .file f => some (List.intercalate [47] f.parts ++ f.data)
  | .dir _ => none

/-- The full byte stream fed to the SHA-256 accumulator of
`compute_data_hash` (`upload_fs.py` lines 19-29). -/
def dataStream (es : List FsEntry) : Bytes :=
  ((sortEntries es).filterMap fileChunk).flatten

/-- `compute_data_hash` from `upload_fs.py` lines 19-29, parameterised by
the digest finaliser (`hexdigest` of SHA-256; it never yields `""`).
`none` models a missing `data/` directory (returns `""`, line 23). -/
def compute_data_hash (digest : Bytes → String) : Option (List FsEntry) → String
  | none => ""
  | some es => digest (dataStream es)

/-- Python `str.strip()` restricted to the ASCII whitespace bytes
(space, tab, newline, carriage return, vertical tab, form feed), as
applied to the hash file's text in `upload_fs.py` line 41. -/
def pyIsSpace (c : Char) : Bool := c.toNat ∈ [32, 9, 10, 13, 11, 12]

/-- Python `s.strip()` on the hash-file content. -/
def pyStrip (s : String) : String :=
  String.mk (((s.data.dropWhile pyIsSpace).reverse.dropWhile pyIsSpace).reverse)

/-- `upload_fs.py` lines 39-41: previous hash is the stripped content of
`.littlefs_hash`, or `""` when the file is absent. -/
def readHashFile : Option String → String
  | none => ""
  | some s => pyStrip s

/-- Pre-hook input: the `data/` tree (`none` = directory absent) and the
content of `.littlefs_hash` (`none` = file absent). -/
structure UploaderState where
  dataDir : Option (List FsEntry)
  hashFile : Option String

/-- Observable outcome of one `upload_fs_if_changed` run: how many times
the external `platformio run --target uploadfs` subprocess was started,
the hash-file content afterwards, and the lines printed. -/
structure UploadRun where
  uploads : Nat
  hashFileAfter : Option String
  stdoutLines : List String
  stderrLines : List String
deriving DecidableEq

/-- `upload_fs_if_changed` from `upload_fs.py` lines 32-66, parameterised
by the SHA-256 digest finaliser and by the external upload action's
success (`uploadOk` = exit status 0; `check=False`, so the subprocess
never raises and the hook always returns normally). -/
def upload_fs_if_changed (digest : Bytes → String) (st : UploaderState)
    (uploadOk : Bool) : UploadRun :=
  match st.dataDir with
  | none =>
    ⟨0, st.hashFile, ["LittleFS: No data/ directory, skipping filesystem upload"], []⟩
  | some entries =>
    if entries = [] then
      ⟨0, st.hashFile, ["LittleFS: No data/ directory, skipping filesystem upload"], []⟩
    else
      let currentHash := compute_data_hash digest (some entries)
      let previousHash := readHashFile st.hashFile
      if currentHash = previousHash then
        ⟨0, st.hashFile, ["LittleFS: Web assets unchanged — skipping filesystem upload"], []⟩
      else if uploadOk then
        ⟨1, some currentHash,
          ["LittleFS: Web assets changed — uploading filesystem image...",
           "LittleFS: Filesystem uploaded successfully"], []⟩
      else
        ⟨1, st.hashFile,
          ["LittleFS: Web assets changed — uploading filesystem image..."],
          ["LittleFS: Filesystem upload FAILED!"]⟩

/-- Little-endian 4-byte encoding used inside the gzip member frame. -/
def le32 (n : Nat) : Bytes :=
  [n % 256, n / 256 % 256, n / 65536 % 256, n / 16777216 % 256]

/-- XFL byte Python's gzip writer derives from the compression level. -/
def gzipXfl (level : Nat) : Nat := if level = 9 then 2 else if level = 1 then 4 else 0

/-- Python `gzip.compress(raw, compresslevel=level, mtime=mtime)`:
10-byte member header (magic, method, flags, 4-byte mtime, XFL, OS=255),
DEFLATE body, then CRC-32 and input size modulo 2^32. The DEFLATE
compressor and CRC-32 are parameters; `now` is the wall-clock time that
is used only when `mtime` is omitted (`none`). -/
def gzip_compress (deflate : Nat → Bytes → Bytes) (crc32 : Bytes → Nat) (now : Nat)
    (raw : Bytes) (level : Nat) (mtime : Option Nat) : Bytes :=
  [31, 139, 8, 0] ++ le32 (mtime.getD now % 4294967296) ++ [gzipXfl level, 255] ++
    deflate level raw ++ le32 (crc32 raw % 4294967296) ++ le32 (raw.length % 4294967296)

/-- Gzip decompression of a member written by `gzip_compress`: strip the
10-byte header and the 8-byte trailer and inflate the DEFLATE body. -/
def gunzipVia (inflate : Bytes → Bytes) (g : Bytes) : Bytes :=
  inflate ((g.drop 10).take (g.length - 18))

/-- Eligibility test of `prepare_littlefs.py` lines 40-41 (also line 77):
the final suffix, lowercased, must be in `SUPPORTED_EXTENSIONS`. -/
def eligibleExt (name : Bytes) : Bool :=
  SUPPORTED_EXTENSIONS.contains (lowerBytes (pySuffix name))

/-- Basename of a file path (`Path.name`). -/
def lastPart (parts : List Bytes) : Bytes := parts.getLastD []

/-- `str(rel).replace("\\", "/").replace(".nogz", "")` of
`prepare_littlefs.py` line 46 (paths here are already `/`-joined). -/
def cleanName (parts : List Bytes) : Bytes := stripNogz (List.intercalate [47] parts)

/-- The per-file loop of `prepare` (`prepare_littlefs.py` lines 36-61):
for each regular file with an eligible extension, in sorted path order,
one write into `data/` — verbatim bytes at the cleaned path when the
basename carries `.nogz.`, otherwise `gzip.compress(raw, compresslevel=9,
mtime=0)` at the cleaned path plus `.gz`. -/
def prepareWrites (deflate : Nat → Bytes → Bytes) (crc32 : Bytes → Nat) (now : Nat)
    (entries : List FsEntry) : List (Bytes × Bytes) :=
  (sortEntries entries).filterMap fun e =>
    match e with
    | .dir _ => none
    | .file f =>
      if eligibleExt (lastPart f.parts) then
        if is_nogz (lastPart f.parts) then
          some (cleanName f.parts, f.data)
        else
          some (cleanName f.parts ++ strBytes ".gz",
                gzip_compress deflate crc32 now f.data 9 (some 0))
      else none

/-- Sequential file writes into an initially empty directory: a later
write to the same path overwrites an earlier one. -/
def applyWrites (ws : List (Bytes × Bytes)) : List (Bytes × Bytes) :=
  ws.foldl (fun acc w => acc.filter (fun e => !(e.1 == w.1)) ++ [w]) []

/-- The top-level cleanup filter of `prepare` (`prepare_littlefs.py`
lines 64-70): a build-tree entry survives iff its top-level component is
a dotfile or has suffix `.py`. -/
def keepEntry (e : FsEntry) : Bool :=
  match e.entryParts with
  | [] => false
  | p1 :: _ => (p1.headD 0 == 46) || (pySuffix p1 == strBytes ".py")

/-- Observable outcome of the pre-build script: the `data/` tree and the
build tree afterwards, and the lines printed. -/
structure PrepareRun where
  dataDirAfter : Option (List FsEntry)
  buildDirAfter : Option (List FsEntry)
  stdoutLines : List String
  stderrLines : List String

/-- `prepare` from `prepare_littlefs.py` lines 28-72: wipe and rebuild
`data/` from the eligible build files, purge the build tree's non-dotfile,
non-`.py` top-level entries, report the processed count. -/
def prepare (deflate : Nat → Bytes → Bytes) (crc32 : Bytes → Nat) (now : Nat)
    (buildEntries : List FsEntry) : PrepareRun :=
  let ws := prepareWrites deflate crc32 now buildEntries
  { dataDirAfter := some ((applyWrites ws).map (fun w => FsEntry.file ⟨w.1.splitOn 47, w.2⟩)),
    buildDirAfter := some (buildEntries.filter keepEntry),
    stdoutLines := ["LittleFS: Prepared " ++ toString ws.length ++ " web assets in data/"],
    stderrLines := [] }

/-- `has_files` from `prepare_littlefs.py` lines 76-79: the build tree
exists and holds at least one regular file with an eligible extension. -/
def has_files (buildDir : Option (List FsEntry)) : Bool :=
  match buildDir with
  | none => false
  | some es => es.any fun e =>
      match e with
      | .file f => eligibleExt (lastPart f.parts)
      | .dir _ => false

/-- `DATA_DIR.exists() and any(DATA_DIR.rglob("*"))` from line 82. -/
def dataHasContent : Option (List FsEntry) → Bool
  | none => false
  | some es => !es.isEmpty

/-- State seen by the pre-build script: the build tree and `data/`. -/
structure BuildState where
  buildDir : Option (List FsEntry)
  dataDir : Option (List FsEntry)

/-- The module-level control flow of `prepare_littlefs.py` lines 76-96:
run `prepare` when eligible build files exist; otherwise leave both trees
untouched and report reuse (stdout) or a warning (stderr). -/
def prepare_littlefs_main (deflate : Nat → Bytes → Bytes) (crc32 : Bytes → Nat)
    (now : Nat) (st : BuildState) : PrepareRun :=
  if has_files st.buildDir then
    prepare deflate crc32 now (st.buildDir.getD [])
  else if dataHasContent st.dataDir then
    { dataDirAfter := st.dataDir, buildDirAfter := st.buildDir,
      stdoutLines := ["No minified files in src/web/build/ — using existing data/ from repository."],
      stderrLines := [] }
  else
    { dataDirAfter := st.dataDir, buildDirAfter := st.buildDir,
      stdoutLines := [],
      stderrLines := ["Warning: No minified files found and no pre-built data/ directory.",
                      "Install minification tools or restore data/ from the repository."] }

/-- The canonical relative path as a function of the source relative path
alone: marker stripped from the joined path, `.gz` appended iff the
basename does not carry the `.nogz.` marker (lines 44-58). -/
def canonicalRelPath (parts : List Bytes) : Bytes :=
  if is_nogz (lastPart parts) then cleanName parts else cleanName parts ++ strBytes ".gz"

/-- Content length of an entry (0 for directories). -/
def FsEntry.entryDataLen : FsEntry → Nat
  | .file f => f.data.length
  | .dir _ => 0

/-! ## Helper lemmas -/

theorem eq_of_perm_of_map_eq {α β : Type} (key : α → β) :
    ∀ (l1 l2 : List α), l1.Perm l2 → l1.map key = l2.map key →
      (l1.map key).Nodup → l1 = l2 := by
  intro l1
  induction l1 with
  | nil =>
    intro l2 hp _ _
    exact hp.nil_eq
  | cons a t ih =>
    intro l2 hp hmap hnd
    cases l2 with
    | nil => exact absurd hp.symm.nil_eq (by simp)
    | cons b t2 =>
      have hnd0 : (key a :: t.map key).Nodup := by simpa using hnd
      have hab : a = b := by
        by_contra hne
        have hmem : a ∈ b :: t2 := hp.mem_iff.mp (List.mem_cons_self a t)
        have hmem2 : a ∈ t2 := by
          cases hmem with
          | head => exact absurd rfl hne
          | tail _ h => exact h
        have hk : key a ∈ t2.map key := List.mem_map_of_mem key hmem2
        have htail : t.map key = t2.map key := by
          simpa using congrArg List.tail hmap
        rw [← htail] at hk
        exact (List.nodup_cons.mp hnd0).1 hk
      subst hab
      have hp' : t.Perm t2 := (List.perm_cons a).mp hp
      have hmap' : t.map key = t2.map key := by simpa using congrArg List.tail hmap
      rw [ih t2 hp' hmap' (List.nodup_cons.mp hnd0).2]

theorem sorted_perm_nodup_eq (l1 l2 : List FsEntry) (hp : l1.Perm l2)
    (hs1 : l1.Sorted entryLe) (hs2 : l2.Sorted entryLe)
    (hnd : (l1.map entryKey).Nodup) : l1 = l2 := by
  have h1 : (l1.map entryKey).Sorted (fun x y : Bytes => x ≤ y) := (List.pairwise_map).mpr hs1
  have h2 : (l2.map entryKey).Sorted (fun x y : Bytes => x ≤ y) := (List.pairwise_map).mpr hs2
  have hmap : l1.map entryKey = l2.map entryKey :=
    List.eq_of_perm_of_sorted (hp.map entryKey) h1 h2
  exact eq_of_perm_of_map_eq entryKey l1 l2 hp hmap hnd

theorem stream_eq_of_shape_eq :
    ∀ (s1 s2 : List FsEntry),
      s1.map FsEntry.entryParts = s2.map FsEntry.entryParts →
      s1.map FsEntry.entryIsFile = s2.map FsEntry.entryIsFile →
      s1.map FsEntry.entryDataLen = s2.map FsEntry.entryDataLen →
      (s1.filterMap fileChunk).flatten = (s2.filterMap fileChunk).flatten →
      s1 = s2 := by
  intro s1
  induction s1 with
  | nil =>
    intro s2 hparts _ _ _
    cases s2 with
    | nil => rfl
    | cons e2 t2 => exact absurd hparts (by simp)
  | cons e1 t1 ih =>
    intro s2 hparts hisf hlen hstream
    cases s2 with
    | nil => exact absurd hparts (by simp)
    | cons e2 t2 =>
      simp only [List.map_cons, List.cons.injEq] at hparts hisf hlen
      cases e1 with
      | dir p1 =>
        cases e2 with
        | file f2 => exact absurd hisf.1 (by simp [FsEntry.entryIsFile])
        | dir p2 =>
          have hpp : p1 = p2 := hparts.1
          subst hpp
          simp only [List.filterMap_cons, fileChunk] at hstream
          rw [ih t2 hparts.2 hisf.2 hlen.2 hstream]
      | file f1 =>
        cases e2 with
        | dir p2 => exact absurd hisf.1 (by simp [FsEntry.entryIsFile])
        | file f2 =>
          have hpp : f1.parts = f2.parts := hparts.1
          simp only [List.filterMap_cons, fileChunk, List.flatten_cons] at hstream
          rw [hpp, List.append_assoc, List.append_assoc] at hstream
          have hrest := List.append_cancel_left hstream
          have hinj := List.append_inj hrest (by simpa [FsEntry.entryDataLen] using hlen.1)
          have hdd : f1.data = f2.data := hinj.1
          have hf : f1 = f2 := by
            cases f1; cases f2
            simp_all
          rw [hf, ih t2 hparts.2 hisf.2 hlen.2 hinj.2]

/-! ## Claim theorems -/

/-- C1: for a run on a non-empty `data/` tree, if the persisted hash (as
read back, missing file = `""`) equals the freshly computed fingerprint,
the upload subprocess is never started; if it differs, it is started
exactly once; in particular with no state file it is always started,
since a digest value is never the empty string. -/
theorem gate_correctness (digest : Bytes → String) (hdg : ∀ s, digest s ≠ "")
    (entries : List FsEntry) (hne : entries ≠ []) (hf : Option String) (ok : Bool) :
    ((readHashFile hf = compute_data_hash digest (some entries)) →
      (upload_fs_if_changed digest ⟨some entries, hf⟩ ok).uploads = 0) ∧
    ((readHashFile hf ≠ compute_data_hash digest (some entries)) →
      (upload_fs_if_changed digest ⟨some entries, hf⟩ ok).uploads = 1) ∧
    (hf = none → (upload_fs_if_changed digest ⟨some entries, hf⟩ ok).uploads = 1) := by
  have hrun : upload_fs_if_changed digest ⟨some entries, hf⟩ ok =
      (if compute_data_hash digest (some entries) = readHashFile hf then
        ⟨0, hf, ["LittleFS: Web assets unchanged — skipping filesystem upload"], []⟩
      else if ok then
        ⟨1, some (compute_data_hash digest (some entries)),
          ["LittleFS: Web assets changed — uploading filesystem image...",
           "LittleFS: Filesystem uploaded successfully"], []⟩
      else
        ⟨1, hf, ["LittleFS: Web assets changed — uploading filesystem image..."],
          ["LittleFS: Filesystem upload FAILED!"]⟩) := by
    simp only [upload_fs_if_changed]
    rw [if_neg hne]
  refine ⟨fun h => ?_, fun h => ?_, fun h => ?_⟩
  · rw [hrun, if_pos h.symm]
  · rw [hrun, if_neg (fun hc => h hc.symm)]
    cases ok <;> simp_all
  · subst h
    have hne2 : compute_data_hash digest (some entries) ≠ readHashFile none := by
      simpa [readHashFile, compute_data_hash] using hdg (dataStream entries)
    rw [hrun, if_neg hne2]
    cases ok <;> simp

/-- Witness for C1: very first run (no state file) on a one-file tree
starts the upload exactly once. -/
theorem gate_correctness_witness :
    (upload_fs_if_changed (fun _ => "d") ⟨some [.file ⟨[[97]], [1]⟩], none⟩ true).uploads = 1 :=
  (gate_correctness (fun _ => "d") (fun _ => (by decide : ("d" : String) ≠ ""))
    [.file ⟨[[97]], [1]⟩] (by decide) none true).2.2 rfl

/-- C2: when the upload action exits nonzero, the hash file afterwards
equals the hash file before (never rewritten), and whenever the upload
was actually attempted the failure is reported on the error stream. The
subprocess runs with `check=False`, so the hook itself always returns
normally (the embedded function is total). -/
theorem failure_non_persistence (digest : Bytes → String) (st : UploaderState) :
    (upload_fs_if_changed digest st false).hashFileAfter = st.hashFile ∧
    ((upload_fs_if_changed digest st false).uploads = 1 →
      (upload_fs_if_changed digest st false).stderrLines =
        ["LittleFS: Filesystem upload FAILED!"]) := by
  obtain ⟨dd, hf⟩ := st
  cases dd with
  | none => simp [upload_fs_if_changed]
  | some entries =>
    by_cases he : entries = []
    · simp [upload_fs_if_changed, he]
    · simp only [upload_fs_if_changed]
      rw [if_neg he]
      split_ifs <;> simp_all

/-- Witness for C2: a failed upload attempt leaves the stale hash file
in place and reports on stderr. -/
theorem failure_non_persistence_witness :
    (upload_fs_if_changed (fun _ => "d") ⟨some [.file ⟨[[97]], [1]⟩], some "e"⟩ false).hashFileAfter = some "e" ∧
    (upload_fs_if_changed (fun _ => "d") ⟨some [.file ⟨[[97]], [1]⟩], some "e"⟩ false).stderrLines =
      ["LittleFS: Filesystem upload FAILED!"] :=
  ⟨(failure_non_persistence (fun _ => "d") ⟨some [.file ⟨[[97]], [1]⟩], some "e"⟩).1,
   (failure_non_persistence (fun _ => "d") ⟨some [.file ⟨[[97]], [1]⟩], some "e"⟩).2 (by decide)⟩

/-- C4: the fingerprint is a pure function of the set of files: the
entries are sorted (the accumulator is fed in ascending path order), and
any permutation of the on-disk enumeration — paths being distinct on a
filesystem — yields the identical digest. -/
theorem fingerprint_deterministic (digest : Bytes → String) (l1 l2 : List FsEntry)
    (hperm : l1.Perm l2) (hnd : (l1.map entryKey).Nodup) :
    (sortEntries l1).Sorted entryLe ∧
    compute_data_hash digest (some l1) = compute_data_hash digest (some l2) := by
  refine ⟨List.sorted_insertionSort entryLe l1, ?_⟩
  have hnd1 : ((sortEntries l1).map entryKey).Nodup :=
    (((List.perm_insertionSort entryLe l1).map entryKey).nodup_iff).mpr hnd
  have hs : sortEntries l1 = sortEntries l2 := by
    apply sorted_perm_nodup_eq
    · exact (List.perm_insertionSort entryLe l1).trans
        (hperm.trans (List.perm_insertionSort entryLe l2).symm)
    · exact List.sorted_insertionSort entryLe l1
    · exact List.sorted_insertionSort entryLe l2
    · exact hnd1
  simp [compute_data_hash, dataStream, hs]

/-- Witness for C4: two enumeration orders of a two-file tree give the
same fingerprint. -/
theorem fingerprint_deterministic_witness :
    (sortEntries [.file ⟨[[98]], [1]⟩, .file ⟨[[97]], [2]⟩]).Sorted entryLe ∧
    compute_data_hash (fun _ => "h") (some [.file ⟨[[98]], [1]⟩, .file ⟨[[97]], [2]⟩]) =
      compute_data_hash (fun _ => "h") (some [.file ⟨[[97]], [2]⟩, .file ⟨[[98]], [1]⟩]) :=
  fingerprint_deterministic (fun _ => "h") _ _ (List.Perm.swap _ _ _) (by decide)

/-- C7: when no eligible build files exist, nothing is rebuilt: both
trees are returned untouched; with pre-built `data/` content the reuse
message goes to stdout, otherwise the two warning lines go to stderr.
The script reaches the end of the module either way (the embedded
function is total, no fatal error path). -/
theorem preparer_skip_frame (deflate : Nat → Bytes → Bytes) (crc32 : Bytes → Nat)
    (now : Nat) (st : BuildState) (h : has_files st.buildDir = false) :
    (prepare_littlefs_main deflate crc32 now st).dataDirAfter = st.dataDir ∧
    (prepare_littlefs_main deflate crc32 now st).buildDirAfter = st.buildDir ∧
    (dataHasContent st.dataDir = true →
      (prepare_littlefs_main deflate crc32 now st).stdoutLines =
        ["No minified files in src/web/build/ — using existing data/ from repository."] ∧
      (prepare_littlefs_main deflate crc32 now st).stderrLines = []) ∧
    (dataHasContent st.dataDir = false →
      (prepare_littlefs_main deflate crc32 now st).stdoutLines = [] ∧
      (prepare_littlefs_main deflate crc32 now st).stderrLines =
        ["Warning: No minified files found and no pre-built data/ directory.",
         "Install minification tools or restore data/ from the repository."]) := by
  simp only [prepare_littlefs_main, h]
  split_ifs with hc <;> simp_all

/-- Witness for C7: absent build tree, pre-built `data/` present — the
output tree is reused untouched. -/
theorem preparer_skip_frame_witness :
    (prepare_littlefs_main (fun _ r => r) (fun _ => 0) 0 ⟨none, some [.file ⟨[[97]], [1]⟩]⟩).dataDirAfter =
      some [.file ⟨[[97]], [1]⟩] ∧
    (prepare_littlefs_main (fun _ r => r) (fun _ => 0) 0 ⟨none, some [.file ⟨[[97]], [1]⟩]⟩).stdoutLines =
      ["No minified files in src/web/build/ — using existing data/ from repository."] :=
  ⟨(preparer_skip_frame (fun _ r => r) (fun _ => 0) 0 ⟨none, some [.file ⟨[[97]], [1]⟩]⟩ (by decide)).1,
   ((preparer_skip_frame (fun _ r => r) (fun _ => 0) 0 ⟨none, some [.file ⟨[[97]], [1]⟩]⟩ (by decide)).2.2.1 (by decide)).1⟩

/-- C8: the preparer's output is independent of the wall-clock time of
the run — `gzip.compress` is called with a pinned level 9 and `mtime=0`,
so two runs at different times on the same source tree produce the same
write sequence, hence the same canonical paths and bytes. -/
theorem preparer_idempotent (deflate : Nat → Bytes → Bytes) (crc32 : Bytes → Nat)
    (t1 t2 : Nat) (tree : List FsEntry) :
    prepareWrites deflate crc32 t1 tree = prepareWrites deflate crc32 t2 tree ∧
    applyWrites (prepareWrites deflate crc32 t1 tree) =
      applyWrites (prepareWrites deflate crc32 t2 tree) ∧
    (prepare deflate crc32 t1 tree).dataDirAfter = (prepare deflate crc32 t2 tree).dataDirAfter := by
  have h : prepareWrites deflate crc32 t1 tree = prepareWrites deflate crc32 t2 tree := by
    simp [prepareWrites, gzip_compress]
  exact ⟨h, by rw [h], by simp [prepare, h]⟩

/-- C9: a file is processed exactly when its final suffix, lowercased,
is in the allow-list; `STYLE.CSS` is eligible, `app.js.map` is not. -/
theorem eligibility_by_final_ext (deflate : Nat → Bytes → Bytes) (crc32 : Bytes → Nat)
    (now : Nat) (f : FsFile) (b1 b2 : Bytes) :
    (prepareWrites deflate crc32 now [.file f]).length =
      (if SUPPORTED_EXTENSIONS.contains (lowerBytes (pySuffix (lastPart f.parts))) then 1 else 0) ∧
    (prepareWrites deflate crc32 now [.file ⟨[strBytes "STYLE.CSS"], b1⟩]).length = 1 ∧
    (prepareWrites deflate crc32 now [.file ⟨[strBytes "app.js.map"], b2⟩]).length = 0 := by
  refine ⟨?_, rfl, rfl⟩
  simp only [prepareWrites, sortEntries, List.insertionSort, List.orderedInsert,
    List.filterMap, eligibleExt]
  split_ifs <;> simp

/-- C10: the `.nogz` marker is stripped from the whole relative path
(also from directory components, no trailing dot required), while the
verbatim-copy test needs the exact `.nogz.` in the basename: so
`a.nogzb.js` is still gzip-compressed yet lands at `ab.js.gz`, and a
directory component `v.nogz` is renamed to `v` in the output. -/
theorem nogz_strip_scope (deflate : Nat → Bytes → Bytes) (crc32 : Bytes → Nat)
    (now : Nat) (b1 b2 : Bytes) :
    prepareWrites deflate crc32 now [.file ⟨[strBytes "a.nogzb.js"], b1⟩] =
      [(strBytes "ab.js.gz", gzip_compress deflate crc32 now b1 9 (some 0))] ∧
    prepareWrites deflate crc32 now [.file ⟨[strBytes "v.nogz", strBytes "x.js"], b2⟩] =
      [(strBytes "v/x.js.gz", gzip_compress deflate crc32 now b2 9 (some 0))] :=
  ⟨rfl, rfl⟩

/-- C5: a source `x.nogz.mp3` yields `x.mp3` with the source bytes
verbatim; a source `x.js` yields `x.js.gz` holding
`gzip.compress(raw, compresslevel=9, mtime=0)`, and decompressing that
member returns the source bytes exactly (for any DEFLATE pair with
`inflate ∘ deflate 9 = id`). -/
theorem marker_semantics (deflate : Nat → Bytes → Bytes) (crc32 : Bytes → Nat)
    (inflate : Bytes → Bytes) (now : Nat) (b : Bytes)
    (hinv : ∀ raw, inflate (deflate 9 raw) = raw) :
    prepareWrites deflate crc32 now [.file ⟨[strBytes "x.nogz.mp3"], b⟩] =
      [(strBytes "x.mp3", b)] ∧
    prepareWrites deflate crc32 now [.file ⟨[strBytes "x.js"], b⟩] =
      [(strBytes "x.js.gz", gzip_compress deflate crc32 now b 9 (some 0))] ∧
    gunzipVia inflate (gzip_compress deflate crc32 now b 9 (some 0)) = b := by
  refine ⟨rfl, rfl, ?_⟩
  have hform : gzip_compress deflate crc32 now b 9 (some 0) =
      31 :: 139 :: 8 :: 0 :: 0 :: 0 :: 0 :: 0 :: 2 :: 255 ::
        (deflate 9 b ++ (le32 (crc32 b % 4294967296) ++ le32 (b.length % 4294967296))) := by
    simp [gzip_compress, le32, gzipXfl]
  have hdrop : (gzip_compress deflate crc32 now b 9 (some 0)).drop 10 =
      deflate 9 b ++ (le32 (crc32 b % 4294967296) ++ le32 (b.length % 4294967296)) := by
    rw [hform]
    rfl
  have hlen : (gzip_compress deflate crc32 now b 9 (some 0)).length =
      (deflate 9 b).length + 18 := by
    rw [hform]
    simp [le32]
  unfold gunzipVia
  rw [hdrop, hlen]
  have h18 : (deflate 9 b).length + 18 - 18 = (deflate 9 b).length := by omega
  rw [h18, List.take_left, hinv]

/-- Witness for C5 at a concrete DEFLATE pair and concrete bytes. -/
theorem marker_semantics_witness :
    prepareWrites (fun _ r => 0 :: r) (fun _ => 5) 77 [.file ⟨[strBytes "x.nogz.mp3"], [9, 9]⟩] =
      [(strBytes "x.mp3", [9, 9])] ∧
    prepareWrites (fun _ r => 0 :: r) (fun _ => 5) 77 [.file ⟨[strBytes "x.js"], [9, 9]⟩] =
      [(strBytes "x.js.gz", gzip_compress (fun _ r => 0 :: r) (fun _ => 5) 77 [9, 9] 9 (some 0))] ∧
    gunzipVia (fun l => l.drop 1) (gzip_compress (fun _ r => 0 :: r) (fun _ => 5) 77 [9, 9] 9 (some 0)) = [9, 9] :=
  marker_semantics (fun _ r => 0 :: r) (fun _ => 5) (fun l => l.drop 1) 77 [9, 9] (fun _ => rfl)

/-- C6 counterexample: the two distinct eligible sources `a.nogz.mp3`
and `a.nogz.nogz.mp3` both map to the canonical path `a.mp3`; the second
write overwrites the first, so the canonical tree holds a single asset
for two eligible source assets — refuting "distinct eligible source
assets never map to the same canonical path" and "exactly one Canonical
Asset per eligible Source Asset". -/
theorem canonical_path_collision :
    (prepareWrites (fun _ r => r) (fun _ => 0) 0
      [.file ⟨[strBytes "a.nogz.mp3"], [1]⟩, .file ⟨[strBytes "a.nogz.nogz.mp3"], [2]⟩]).map Prod.fst
      = [strBytes "a.mp3", strBytes "a.mp3"] ∧
    applyWrites (prepareWrites (fun _ r => r) (fun _ => 0) 0
      [.file ⟨[strBytes "a.nogz.mp3"], [1]⟩, .file ⟨[strBytes "a.nogz.nogz.mp3"], [2]⟩])
      = [(strBytes "a.mp3", [2])] := by
  decide

/-- C6 as amended: the preparer emits exactly one write per eligible
source file, in sorted source order, and the write's relative path is
`canonicalRelPath` of the source's relative path alone (marker stripped,
`.gz` appended iff compressed); distinct sources may still collide on
that path, in which case the later write overwrites the earlier. -/
theorem canonical_path_pure (deflate : Nat → Bytes → Bytes) (crc32 : Bytes → Nat)
    (now : Nat) (es : List FsEntry) :
    (prepareWrites deflate crc32 now es).map Prod.fst =
      (sortEntries es).filterMap (fun e =>
        match e with
        | .file f =>
          if eligibleExt (lastPart f.parts) then some (canonicalRelPath f.parts) else none
        | .dir _ => none) := by
  unfold prepareWrites
  rw [List.map_filterMap]
  congr 1
  funext e
  cases e with
  | dir p => rfl
  | file f =>
    dsimp only
    split_ifs with h1 h2 <;> simp_all [canonicalRelPath]

/-- C3 counterexample: the tree holding only `ab` with bytes `c` and the
tree holding only `a` with bytes `bc` differ in every file's path and
bytes, yet the byte stream fed to the accumulator is `abc` in both, so
`compute_data_hash` returns the same fingerprint for both under any
digest — not a hash collision of the chosen hash. -/
theorem fingerprint_collision :
    [FsEntry.file ⟨[strBytes "ab"], strBytes "c"⟩] ≠
      [FsEntry.file ⟨[strBytes "a"], strBytes "bc"⟩] ∧
    ([FsEntry.file ⟨[strBytes "ab"], strBytes "c"⟩].map entryKey) ≠
      ([FsEntry.file ⟨[strBytes "a"], strBytes "bc"⟩].map entryKey) ∧
    dataStream [FsEntry.file ⟨[strBytes "ab"], strBytes "c"⟩] =
      dataStream [FsEntry.file ⟨[strBytes "a"], strBytes "bc"⟩] ∧
    compute_data_hash (fun s => String.mk (s.map Char.ofNat))
        (some [FsEntry.file ⟨[strBytes "ab"], strBytes "c"⟩]) =
      compute_data_hash (fun s => String.mk (s.map Char.ofNat))
        (some [FsEntry.file ⟨[strBytes "a"], strBytes "bc"⟩]) := by
  refine ⟨by decide, by decide, by decide, ?_⟩
  have h : dataStream [FsEntry.file ⟨[strBytes "ab"], strBytes "c"⟩] =
      dataStream [FsEntry.file ⟨[strBytes "a"], strBytes "bc"⟩] := by decide
  simp [compute_data_hash, h]

/-- C3 as amended: the accumulator stream is not injective across
arbitrary tree changes (see the counterexample), but it is injective
once the sorted shape is fixed: two trees whose sorted entries agree
pointwise in relative path, entry kind and content length, and that are
not equal, produce different streams — and hence different fingerprints
under any injective digest (i.e. up to collisions of the chosen hash). -/
theorem fingerprint_sensitive_same_shape (digest : Bytes → String) (l1 l2 : List FsEntry)
    (hp : (sortEntries l1).map FsEntry.entryParts = (sortEntries l2).map FsEntry.entryParts)
    (hisf : (sortEntries l1).map FsEntry.entryIsFile = (sortEntries l2).map FsEntry.entryIsFile)
    (hlen : (sortEntries l1).map FsEntry.entryDataLen = (sortEntries l2).map FsEntry.entryDataLen)
    (hne : sortEntries l1 ≠ sortEntries l2) :
    dataStream l1 ≠ dataStream l2 ∧
    (Function.Injective digest →
      compute_data_hash digest (some l1) ≠ compute_data_hash digest (some l2)) := by
  have hds : dataStream l1 ≠ dataStream l2 := by
    intro hs
    exact hne (stream_eq_of_shape_eq (sortEntries l1) (sortEntries l2) hp hisf hlen hs)
  exact ⟨hds, fun hinj hd => hds (hinj hd)⟩

/-- Witness for the amended C3: same single path, same length, different
byte — the streams differ. -/
theorem fingerprint_sensitive_witness :
    dataStream [FsEntry.file ⟨[[97]], [0]⟩] ≠ dataStream [FsEntry.file ⟨[[97]], [1]⟩] :=
  (fingerprint_sensitive_same_shape (fun _ => "h") [FsEntry.file ⟨[[97]], [0]⟩]
    [FsEntry.file ⟨[[97]], [1]⟩] (by decide) (by decide) (by decide) (by decide)).1

end OpenChess

